import Mathlib

/-!
Verification of the U2F raw-message protocol engine (nrf52-u2f).

The repository ships the protocol header `src/include/u2f.h`, which fixes the
wire layouts, constants and status words; the behavioural logic declared there
(`u2f_register`, `u2f_authenticate`, the counter store and key-handle
management) is implemented outside the shipped sources, so those operations
are modelled from the specification, as marked by their doc comments.
Byte buffers are modelled as `List Nat` with each element a byte value;
multi-byte status words and the 32-bit usage counter are plain `Nat`.
-/

/-! ## Constants from `src/include/u2f.h` -/

def U2F_EC_KEY_SIZE : Nat := 32

def U2F_EC_POINT_SIZE : Nat := U2F_EC_KEY_SIZE * 2 + 1

def U2F_MAX_KH_SIZE : Nat := 128

def U2F_MAX_ATT_CERT_SIZE : Nat := 2048

def U2F_MAX_EC_SIG_SIZE : Nat := 72

def U2F_CTR_SIZE : Nat := 4

def U2F_APPID_SIZE : Nat := 32

def U2F_CHAL_SIZE : Nat := 32

/-- `#define ENC_SIZE(x) ((x + 7) & 0xfff8)` from `u2f.h`. -/
def ENC_SIZE (x : Nat) : Nat := (x + 7) &&& 0xfff8

def U2F_POINT_UNCOMPRESSED : Nat := 0x04

def U2F_REGISTER_ID : Nat := 0x05

def U2F_REGISTER_HASH_ID : Nat := 0x00

def U2F_AUTH_ENFORCE : Nat := 0x03

def U2F_AUTH_CHECK_ONLY : Nat := 0x07

def U2F_AUTH_FLAG_TUP : Nat := 0x01

/-- Byte size of the packed `U2F_EC_POINT` struct: 1 + 32 + 32. -/
def sizeof_U2F_EC_POINT : Nat := 1 + U2F_EC_KEY_SIZE + U2F_EC_KEY_SIZE

/-- Byte size of the packed `U2F_AUTHENTICATE_REQ` struct: 32 + 32 + 1 + 128. -/
def sizeof_U2F_AUTHENTICATE_REQ : Nat :=
  U2F_CHAL_SIZE + U2F_APPID_SIZE + 1 + U2F_MAX_KH_SIZE

/-- Byte size of the packed `U2F_REGISTER_RESP` struct. -/
def sizeof_U2F_REGISTER_RESP : Nat :=
  1 + sizeof_U2F_EC_POINT + 1 +
    (U2F_MAX_KH_SIZE + U2F_MAX_ATT_CERT_SIZE + U2F_MAX_EC_SIG_SIZE)

def U2F_MAX_REQ_SIZE : Nat := sizeof_U2F_AUTHENTICATE_REQ + 10

def U2F_MAX_RESP_SIZE : Nat := sizeof_U2F_REGISTER_RESP + 2

def U2F_SW_NO_ERROR : Nat := 0x9000

def U2F_SW_WRONG_LENGTH : Nat := 0x6700

def U2F_SW_WRONG_DATA : Nat := 0x6A80

def U2F_SW_CONDITIONS_NOT_SATISFIED : Nat := 0x6985

def U2F_SW_COMMAND_NOT_ALLOWED : Nat := 0x6986

def U2F_SW_INS_NOT_SUPPORTED : Nat := 0x6D00

def U2F_SW_CLA_NOT_SUPPORTED : Nat := 0x6E00

def VENDOR_U2F_NOMEM : Nat := 0xEE04

def VENDOR_U2F_VERSION : String := "U2F_V2"

/-! ## Arithmetic facts about `ENC_SIZE` -/

/-- For `y < 2^16`, masking with `0xfff8` clears exactly the low three bits. -/
theorem land_fff8 (y : Nat) (hy : y < 65536) : y &&& 65528 = 8 * (y / 8) := by
  have hmask : (65528 : Nat) = (2 ^ 13 - 1) <<< 3 := by
    rw [Nat.shiftLeft_eq]
    norm_num
  have hdiv : 8 * (y / 8) = (y >>> 3) <<< 3 := by
    rw [Nat.shiftRight_eq_div_pow, Nat.shiftLeft_eq]
    norm_num
    ring
  rw [hmask, hdiv]
  apply Nat.eq_of_testBit_eq
  intro i
  rw [Nat.testBit_land, Nat.testBit_shiftLeft, Nat.testBit_shiftLeft,
    Nat.testBit_shiftRight, Nat.testBit_two_pow_sub_one]
  by_cases h3 : 3 ≤ i
  · by_cases h16 : i < 16
    · have hi : 3 + (i - 3) = i := by omega
      have h13 : i - 3 < 13 := by omega
      simp [hi, (show i ≥ 3 from h3), h13]
    · have hyi : y.testBit i = false := by
        apply Nat.testBit_lt_two_pow
        calc y < 65536 := hy
          _ = 2 ^ 16 := by norm_num
          _ ≤ 2 ^ i := Nat.pow_le_pow_right (by norm_num) (by omega)
      have hi : 3 + (i - 3) = i := by omega
      have h13 : ¬ (i - 3 < 13) := by omega
      simp [hi, hyi, h13]
  · simp [show ¬ (i ≥ 3) from h3]

/-- C9: on `0 ≤ x ≤ 65528`, `ENC_SIZE x = (x + 7) &&& 0xfff8` is the least
multiple of 8 that is ≥ x (hence `ENC_SIZE x ≥ x`), and `ENC_SIZE` is
idempotent on that range. -/
theorem enc_size_least_multiple_of_eight (x : Nat) (hx : x ≤ 65528) :
    (ENC_SIZE x % 8 = 0 ∧ x ≤ ENC_SIZE x ∧
      ∀ m, m % 8 = 0 → x ≤ m → ENC_SIZE x ≤ m) ∧
    ENC_SIZE (ENC_SIZE x) = ENC_SIZE x := by
  have h1 : ENC_SIZE x = 8 * ((x + 7) / 8) := land_fff8 (x + 7) (by omega)
  have h2 : ENC_SIZE (ENC_SIZE x) = 8 * ((ENC_SIZE x + 7) / 8) :=
    land_fff8 (ENC_SIZE x + 7) (by omega)
  refine ⟨⟨by omega, by omega, ?_⟩, by omega⟩
  intro m hm hxm
  omega

/-- Witness for C9 at `x = 3`: `ENC_SIZE 3 = 8` and idempotence there. -/
theorem enc_size_least_multiple_of_eight_witness :
    ENC_SIZE 3 = 8 ∧ ENC_SIZE (ENC_SIZE 3) = ENC_SIZE 3 :=
  ⟨by decide, (enc_size_least_multiple_of_eight 3 (by decide)).2⟩

/-! ## Wire data model (layouts from `u2f.h`, codec behaviour modelled
from the spec since the codec implementation is not among the shipped
sources) -/

/-- EC (uncompressed) point, per `U2F_EC_POINT` in `u2f.h`. -/
structure ECPoint where
  pointFormat : Nat
  x : List Nat
  y : List Nat
deriving DecidableEq

/-- Well-formedness from the header layout: a 65-byte uncompressed point. -/
def ECPoint.wf (p : ECPoint) : Prop :=
  p.pointFormat = U2F_POINT_UNCOMPRESSED ∧
  p.x.length = U2F_EC_KEY_SIZE ∧ p.y.length = U2F_EC_KEY_SIZE

def encodeECPoint (p : ECPoint) : List Nat :=
  [p.pointFormat] ++ p.x ++ p.y

/-- Typed `U2F_REGISTER_REQ`: 32-byte challenge, 32-byte application id. -/
structure RegisterRequest where
  challenge : List Nat
  applicationId : List Nat
deriving DecidableEq

/-- Modelled from the spec: the Wire Codec `decodeRegisterRequest` (its
implementation is not among the shipped sources); fails iff the buffer is
shorter than the 64-byte fixed layout of `U2F_REGISTER_REQ`. -/
def decodeRegisterRequest (b : List Nat) : Option RegisterRequest :=
  if U2F_CHAL_SIZE + U2F_APPID_SIZE ≤ b.length then
    some ⟨b.take 32, (b.drop 32).take 32⟩
  else none

def encodeRegisterRequest (r : RegisterRequest) : List Nat :=
  r.challenge ++ r.applicationId

/-- Typed `U2F_AUTHENTICATE_REQ`; `keyHandleLen` is implicit as
`keyHandle.length`. -/
structure AuthenticateRequest where
  challenge : List Nat
  applicationId : List Nat
  keyHandle : List Nat
deriving DecidableEq

/-- Modelled from the spec: the Wire Codec `decodeAuthenticateRequest` (its
implementation is not among the shipped sources); fails iff the buffer is
shorter than the 65-byte fixed prefix, the key-handle length byte at offset
64 exceeds `U2F_MAX_KH_SIZE = 128`, or the buffer is shorter than
`65 + keyHandleLen`. -/
def decodeAuthenticateRequest (b : List Nat) : Option AuthenticateRequest :=
  if U2F_CHAL_SIZE + U2F_APPID_SIZE + 1 ≤ b.length then
    if b.getD 64 0 ≤ U2F_MAX_KH_SIZE ∧ 65 + b.getD 64 0 ≤ b.length then
      some ⟨b.take 32, (b.drop 32).take 32, (b.drop 65).take (b.getD 64 0)⟩
    else none
  else none

def encodeAuthenticateRequest (r : AuthenticateRequest) : List Nat :=
  r.challenge ++ r.applicationId ++ [r.keyHandle.length] ++ r.keyHandle

/-- Typed `U2F_REGISTER_RESP`; the `keyHandleCertSig` region is split into
its three variable parts, with `keyHandleLen` implicit. -/
structure RegisterResponse where
  registerId : Nat
  pubKey : ECPoint
  keyHandle : List Nat
  attCert : List Nat
  sig : List Nat
deriving DecidableEq

def RegisterResponse.wf (r : RegisterResponse) : Prop :=
  r.pubKey.wf ∧ r.keyHandle.length ≤ U2F_MAX_KH_SIZE ∧
  r.attCert.length ≤ U2F_MAX_ATT_CERT_SIZE ∧
  r.sig.length ≤ U2F_MAX_EC_SIG_SIZE

def encodeRegisterResponse (r : RegisterResponse) : List Nat :=
  [r.registerId] ++ encodeECPoint r.pubKey ++ [r.keyHandle.length] ++
    r.keyHandle ++ r.attCert ++ r.sig

/-- Big-endian 4-byte encoding of the 32-bit counter field. -/
def natToBytesBE4 (n : Nat) : List Nat :=
  [n / 2 ^ 24 % 256, n / 2 ^ 16 % 256, n / 2 ^ 8 % 256, n % 256]

/-- Typed `U2F_AUTHENTICATE_RESP`; the counter is kept as a `Nat` and laid
out big-endian by the encoder. -/
structure AuthenticateResponse where
  flags : Nat
  counter : Nat
  sig : List Nat
deriving DecidableEq

def AuthenticateResponse.wf (r : AuthenticateResponse) : Prop :=
  r.sig.length ≤ U2F_MAX_EC_SIG_SIZE

def encodeAuthenticateResponse (r : AuthenticateResponse) : List Nat :=
  [r.flags] ++ natToBytesBE4 r.counter ++ r.sig

/-- C6: decoding any 64-byte buffer as a `RegisterRequest` (challenge =
bytes 0..31, applicationId = bytes 32..63) and re-encoding yields the same
buffer. -/
theorem register_request_decode_encode_roundtrip (b : List Nat)
    (hb : b.length = 64) :
    (decodeRegisterRequest b).map encodeRegisterRequest = some b := by
  have h1 : (b.drop 32).take 32 = b.drop 32 := List.take_of_length_le (by simp [hb])
  simp [decodeRegisterRequest, encodeRegisterRequest, U2F_CHAL_SIZE,
    U2F_APPID_SIZE, hb, h1, List.take_append_drop]

/-- Witness for C6 at the all-zero 64-byte buffer. -/
theorem register_request_decode_encode_roundtrip_witness :
    (decodeRegisterRequest (List.replicate 64 0)).map encodeRegisterRequest =
      some (List.replicate 64 0) :=
  register_request_decode_encode_roundtrip (List.replicate 64 0) (by simp)

/-! ## Collaborator model -/

/-- A private-key reference: either the device attestation key or a derived
per-registration user key slot. -/
inductive KeyRef where
  | attestation
  | user (slot : Nat)
deriving DecidableEq

/-- One record of the Key Handle Manager's store: a handle bound to the
application id it was derived for and the key slot it references. -/
structure KHRecord where
  appId : List Nat
  handle : List Nat
  keyRef : Nat
deriving DecidableEq

structure KHMState where
  records : List KHRecord
  nextSlot : Nat
deriving DecidableEq

/-- Modelled from the spec: the opaque key handle issued for key slot `n`
(the Key Handle Manager implementation is not among the shipped sources);
a 4-byte big-endian encoding of the slot number, injective on the 32-bit
slot space. -/
def mkHandle (n : Nat) : List Nat := natToBytesBE4 n

/-- Modelled from the spec: Key Handle Manager `derive(applicationId)` —
generates fresh key material bound to `applicationId` and an opaque handle;
signals ResourceExhausted (`none`) when the 32-bit slot space is full. -/
def khmDerive (s : KHMState) (appId : List Nat) :
    Option (List Nat × Nat × KHMState) :=
  if s.nextSlot < 2 ^ 32 then
    some (mkHandle s.nextSlot, s.nextSlot,
      ⟨s.records ++ [⟨appId, mkHandle s.nextSlot, s.nextSlot⟩], s.nextSlot + 1⟩)
  else none

/-- Modelled from the spec: Key Handle Manager `resolve(applicationId, H)` —
returns the private-key reference only when `H` was derived for exactly this
application id, and NotFound (`none`) otherwise. -/
def khmResolve (s : KHMState) (appId h : List Nat) : Option Nat :=
  (s.records.find? (fun r => r.handle == h && r.appId == appId)).map
    (fun r => r.keyRef)

/-- Store invariant: every record's handle is the canonical encoding of its
slot, and every slot is below the allocation watermark. -/
def KHMState.wf (s : KHMState) : Prop :=
  ∀ r ∈ s.records, r.handle = mkHandle r.keyRef ∧ r.keyRef < s.nextSlot

structure CounterState where
  ctr : Nat
deriving DecidableEq

/-- Modelled from the spec: Counter Store `next()` — atomically increments,
persists and returns the new value; signals Exhausted (`none`) when the
32-bit counter has reached its maximum representable value. -/
def counterNext (s : CounterState) : Option (Nat × CounterState) :=
  if s.ctr < 2 ^ 32 - 1 then some (s.ctr + 1, ⟨s.ctr + 1⟩) else none

structure DeviceState where
  khm : KHMState
  counter : CounterState
deriving DecidableEq

/-- Record of collaborator invocations made while serving one command. -/
structure Trace where
  resolveCalls : Nat
  deriveCalls : Nat
  counterCalls : Nat
  signCalls : List (List Nat × KeyRef)
deriving DecidableEq

def Trace.empty : Trace := ⟨0, 0, 0, []⟩

/-- Internal outcome set of the Command Processor. -/
inductive Outcome where
  | success
  | malformed
  | notFound
  | conditionsNotSatisfied
  | resourceExhausted
  | unsupportedCommand
deriving DecidableEq

/-- Modelled from the spec: the Status Mapper — a total function from the
internal outcome set to the fixed status-word vocabulary of `u2f.h`. -/
def statusMapper : Outcome → Nat
  | .success => U2F_SW_NO_ERROR
  | .malformed => U2F_SW_WRONG_LENGTH
  | .notFound => U2F_SW_WRONG_DATA
  | .conditionsNotSatisfied => U2F_SW_CONDITIONS_NOT_SATISFIED
  | .resourceExhausted => VENDOR_U2F_NOMEM
  | .unsupportedCommand => U2F_SW_INS_NOT_SUPPORTED

/-- The fixed status-word vocabulary of `u2f.h`. -/
def StatusWordVocab : List Nat :=
  [U2F_SW_NO_ERROR, U2F_SW_WRONG_LENGTH, U2F_SW_WRONG_DATA,
   U2F_SW_CONDITIONS_NOT_SATISFIED, U2F_SW_COMMAND_NOT_ALLOWED,
   U2F_SW_INS_NOT_SUPPORTED, U2F_SW_CLA_NOT_SUPPORTED, VENDOR_U2F_NOMEM]

/-! ## Command Processor -/

structure AuthResult where
  status : Nat
  resp : Option AuthenticateResponse
  state : DeviceState
  trace : Trace
deriving DecidableEq

/-- Modelled from the spec: `u2f_authenticate` (declared in `u2f.h` but
implemented outside the shipped sources). Decode; CheckOnly (0x07) performs
only the resolution step and maps a valid handle to ConditionsNotSatisfied,
an invalid one to WrongData; Enforce (0x03) resolves, requires presence,
advances the counter and signs applicationId ∥ flags ∥ counter (big-endian)
∥ challenge with the resolved user key; unrecognized control bytes are
rejected. The signing primitive `signFn` is an opaque collaborator. -/
def u2f_authenticate (signFn : List Nat → KeyRef → List Nat)
    (s : DeviceState) (buf : List Nat) (ctl : Nat) (presence : Bool) :
    AuthResult :=
  match decodeAuthenticateRequest buf with
  | none => ⟨statusMapper .malformed, none, s, Trace.empty⟩
  | some req =>
    if ctl = U2F_AUTH_CHECK_ONLY then
      match khmResolve s.khm req.applicationId req.keyHandle with
      | some _ => ⟨statusMapper .conditionsNotSatisfied, none, s, ⟨1, 0, 0, []⟩⟩
      | none => ⟨statusMapper .notFound, none, s, ⟨1, 0, 0, []⟩⟩
    else if ctl = U2F_AUTH_ENFORCE then
      match khmResolve s.khm req.applicationId req.keyHandle with
      | none => ⟨statusMapper .notFound, none, s, ⟨1, 0, 0, []⟩⟩
      | some slot =>
        if presence then
          match counterNext s.counter with
          | none => ⟨statusMapper .resourceExhausted, none, s, ⟨1, 0, 1, []⟩⟩
          | some (c, cs) =>
            let payload := req.applicationId ++ [U2F_AUTH_FLAG_TUP] ++
              natToBytesBE4 c ++ req.challenge
            ⟨statusMapper .success,
             some ⟨U2F_AUTH_FLAG_TUP, c, signFn payload (KeyRef.user slot)⟩,
             ⟨s.khm, cs⟩, ⟨1, 0, 1, [(payload, KeyRef.user slot)]⟩⟩
        else ⟨statusMapper .conditionsNotSatisfied, none, s, ⟨1, 0, 0, []⟩⟩
    else ⟨statusMapper .unsupportedCommand, none, s, Trace.empty⟩

structure RegResult where
  status : Nat
  resp : Option RegisterResponse
  state : DeviceState
  trace : Trace
deriving DecidableEq

/-- Modelled from the spec: `u2f_register` (declared in `u2f.h` but
implemented outside the shipped sources). Decode; require presence; derive
fresh key material; sign 0x00 ∥ applicationId ∥ challenge ∥ keyHandle ∥
publicKey with the attestation key; assemble the response with
registerId = 0x05. `genKey` (key generation) and `signFn` (signing) are
opaque collaborators, `attCert` the attestation certificate provider's
output. -/
def u2f_register (signFn : List Nat → KeyRef → List Nat)
    (genKey : Nat → ECPoint) (attCert : List Nat)
    (s : DeviceState) (buf : List Nat) (presence : Bool) : RegResult :=
  match decodeRegisterRequest buf with
  | none => ⟨statusMapper .malformed, none, s, Trace.empty⟩
  | some req =>
    if presence then
      match khmDerive s.khm req.applicationId with
      | none => ⟨statusMapper .resourceExhausted, none, s, ⟨0, 1, 0, []⟩⟩
      | some (h, slot, khm) =>
        let pub := genKey slot
        let payload := [U2F_REGISTER_HASH_ID] ++ req.applicationId ++
          req.challenge ++ h ++ encodeECPoint pub
        ⟨statusMapper .success,
         some ⟨U2F_REGISTER_ID, pub, h, attCert,
           signFn payload KeyRef.attestation⟩,
         ⟨khm, s.counter⟩, ⟨0, 1, 0, [(payload, KeyRef.attestation)]⟩⟩
    else ⟨statusMapper .conditionsNotSatisfied, none, s, Trace.empty⟩

/-- The fixed version string bytes of `VENDOR_U2F_VERSION = "U2F_V2"`. -/
def versionBytes : List Nat := VENDOR_U2F_VERSION.data.map Char.toNat

/-- Modelled from the spec: the Version Responder — returns the fixed
version string with status Success and touches no state. -/
def u2f_version (s : DeviceState) : List Nat × Nat × DeviceState × Trace :=
  (versionBytes, statusMapper .success, s, Trace.empty)

/-! ## Theorems -/

/-- `mkHandle` is injective on the 32-bit slot space. -/
theorem mkHandle_inj_lt (a b : Nat) (ha : a < 2 ^ 32) (hb : b < 2 ^ 32)
    (h : mkHandle a = mkHandle b) : a = b := by
  simp only [mkHandle, natToBytesBE4, List.cons.injEq, and_true] at h
  omega

/-- C8: the Version command returns exactly the 6-byte literal "U2F_V2"
with status Success, never fails, and has no side effect on any state. -/
theorem version_fixed_and_pure (s : DeviceState) :
    u2f_version s = (versionBytes, U2F_SW_NO_ERROR, s, Trace.empty) ∧
    versionBytes = [85, 50, 70, 95, 86, 50] ∧ versionBytes.length = 6 := by
  refine ⟨rfl, ?_, ?_⟩ <;> decide

/-- C7: the Status Mapper is a deterministic total function on the internal
outcome set whose values lie in the fixed status-word vocabulary of
`u2f.h`, with the documented word for each outcome, and every
Register/Authenticate exit path yields exactly one mapped status word. -/
theorem status_mapper_total_vocab :
    (∀ o, statusMapper o ∈ StatusWordVocab) ∧
    (statusMapper .success = 0x9000 ∧ statusMapper .malformed = 0x6700 ∧
      statusMapper .notFound = 0x6A80 ∧
      statusMapper .conditionsNotSatisfied = 0x6985 ∧
      statusMapper .resourceExhausted = 0xEE04 ∧
      statusMapper .unsupportedCommand = 0x6D00) ∧
    (∀ signFn s buf ctl presence, ∃ o,
      (u2f_authenticate signFn s buf ctl presence).status = statusMapper o) ∧
    (∀ signFn genKey attCert s buf presence, ∃ o,
      (u2f_register signFn genKey attCert s buf presence).status =
        statusMapper o) := by
  refine ⟨fun o => by cases o <;> decide, by decide, ?_, ?_⟩
  · intro signFn s buf ctl presence
    unfold u2f_authenticate
    repeat' split
    all_goals first
      | exact ⟨.malformed, rfl⟩
      | exact ⟨.conditionsNotSatisfied, rfl⟩
      | exact ⟨.notFound, rfl⟩
      | exact ⟨.resourceExhausted, rfl⟩
      | exact ⟨.success, rfl⟩
      | exact ⟨.unsupportedCommand, rfl⟩
  · intro signFn genKey attCert s buf presence
    unfold u2f_register
    repeat' split
    all_goals first
      | exact ⟨.malformed, rfl⟩
      | exact ⟨.conditionsNotSatisfied, rfl⟩
      | exact ⟨.resourceExhausted, rfl⟩
      | exact ⟨.success, rfl⟩

/-- C2: any Authenticate buffer whose key-handle length byte exceeds 128,
or that is shorter than the 65-byte fixed prefix plus that length, fails to
decode (MalformedError), is answered with WrongLength, and invokes no
collaborator and changes no state. -/
theorem authenticate_malformed_no_side_effects
    (signFn : List Nat → KeyRef → List Nat) (s : DeviceState)
    (buf : List Nat) (ctl : Nat) (presence : Bool)
    (h : (65 ≤ buf.length ∧ 128 < buf.getD 64 0) ∨
      buf.length < 65 + buf.getD 64 0) :
    decodeAuthenticateRequest buf = none ∧
    u2f_authenticate signFn s buf ctl presence =
      ⟨U2F_SW_WRONG_LENGTH, none, s, Trace.empty⟩ := by
  have hd : decodeAuthenticateRequest buf = none := by
    unfold decodeAuthenticateRequest
    simp only [U2F_CHAL_SIZE, U2F_APPID_SIZE, U2F_MAX_KH_SIZE]
    split
    · rw [if_neg]
      rename_i hlen
      omega
    · rfl
  refine ⟨hd, ?_⟩
  unfold u2f_authenticate
  rw [hd]
  rfl

/-- Witness for C2: a 65-byte buffer announcing a 129-byte key handle is
rejected with WrongLength and no side effects. -/
theorem authenticate_malformed_no_side_effects_witness :
    decodeAuthenticateRequest (List.replicate 64 0 ++ [129]) = none ∧
    u2f_authenticate (fun _ _ => []) ⟨⟨[], 0⟩, ⟨0⟩⟩
        (List.replicate 64 0 ++ [129]) U2F_AUTH_ENFORCE true =
      ⟨U2F_SW_WRONG_LENGTH, none, ⟨⟨[], 0⟩, ⟨0⟩⟩, Trace.empty⟩ :=
  authenticate_malformed_no_side_effects (fun _ _ => []) ⟨⟨[], 0⟩, ⟨0⟩⟩
    (List.replicate 64 0 ++ [129]) U2F_AUTH_ENFORCE true (Or.inl (by decide))

/-- C4: a well-formed CheckOnly-mode Authenticate performs only the
key-handle resolution step, leaves the whole state (in particular the
counter) unchanged, never invokes the Signature Engine, and returns
ConditionsNotSatisfied when the handle resolves for the application id and
WrongData when it does not. -/
theorem authenticate_check_only
    (signFn : List Nat → KeyRef → List Nat) (s : DeviceState)
    (buf : List Nat) (presence : Bool) (req : AuthenticateRequest)
    (hd : decodeAuthenticateRequest buf = some req) :
    (u2f_authenticate signFn s buf U2F_AUTH_CHECK_ONLY presence).state = s ∧
    (u2f_authenticate signFn s buf U2F_AUTH_CHECK_ONLY presence).trace =
      ⟨1, 0, 0, []⟩ ∧
    (u2f_authenticate signFn s buf U2F_AUTH_CHECK_ONLY presence).status =
      (if (khmResolve s.khm req.applicationId req.keyHandle).isSome
       then U2F_SW_CONDITIONS_NOT_SATISFIED else U2F_SW_WRONG_DATA) := by
  unfold u2f_authenticate
  rw [hd]
  cases hres : khmResolve s.khm req.applicationId req.keyHandle <;>
    simp [hres, statusMapper]

/-- Witness for C4: on a fresh device, a well-formed CheckOnly request with
an unknown (empty) handle returns WrongData. -/
theorem authenticate_check_only_witness :
    (u2f_authenticate (fun _ _ => []) ⟨⟨[], 0⟩, ⟨0⟩⟩ (List.replicate 65 0)
      U2F_AUTH_CHECK_ONLY true).status = U2F_SW_WRONG_DATA :=
  ((authenticate_check_only (fun _ _ => []) ⟨⟨[], 0⟩, ⟨0⟩⟩
    (List.replicate 65 0) true
    ⟨List.replicate 32 0, List.replicate 32 0, []⟩ (by decide)).2.2).trans
    (by decide)

/-- C5: every successful Register passes the Signature Engine exactly the
payload 0x00 ∥ applicationId ∥ challenge ∥ keyHandle ∥ publicKey (65-byte
uncompressed point), keyed by the attestation private key — which differs
from every user key — and the assembled response has registerId = 0x05. -/
theorem register_attestation_payload
    (signFn : List Nat → KeyRef → List Nat) (genKey : Nat → ECPoint)
    (attCert : List Nat) (s : DeviceState) (buf : List Nat)
    (req : RegisterRequest) (h : List Nat) (slot : Nat) (khm : KHMState)
    (hd : decodeRegisterRequest buf = some req)
    (hder : khmDerive s.khm req.applicationId = some (h, slot, khm))
    (hgen : (genKey slot).wf) :
    (u2f_register signFn genKey attCert s buf true).trace.signCalls =
      [([U2F_REGISTER_HASH_ID] ++ req.applicationId ++ req.challenge ++ h ++
        encodeECPoint (genKey slot), KeyRef.attestation)] ∧
    (encodeECPoint (genKey slot)).length = 65 ∧
    (∀ n, KeyRef.attestation ≠ KeyRef.user n) ∧
    (u2f_register signFn genKey attCert s buf true).resp =
      some ⟨U2F_REGISTER_ID, genKey slot, h, attCert,
        signFn ([U2F_REGISTER_HASH_ID] ++ req.applicationId ++ req.challenge
          ++ h ++ encodeECPoint (genKey slot)) KeyRef.attestation⟩ ∧
    U2F_REGISTER_ID = 0x05 := by
  obtain ⟨hfmt, hx, hy⟩ := hgen
  unfold u2f_register
  rw [hd]
  refine ⟨?_, ?_, ?_, ?_, rfl⟩
  · simp [hder]
  · simp [encodeECPoint, hx, hy, U2F_EC_KEY_SIZE]
  · intro n hc
    cases hc
  · simp [hder]

/-- Witness for C5: a fresh device registering the all-zero request signs
the expected payload with the attestation key. -/
theorem register_attestation_payload_witness :
    (u2f_register (fun _ _ => [])
      (fun _ => ⟨4, List.replicate 32 0, List.replicate 32 0⟩) []
      ⟨⟨[], 0⟩, ⟨0⟩⟩ (List.replicate 64 0) true).trace.signCalls =
      [([U2F_REGISTER_HASH_ID] ++ List.replicate 32 0 ++ List.replicate 32 0
        ++ mkHandle 0 ++
        encodeECPoint ⟨4, List.replicate 32 0, List.replicate 32 0⟩,
        KeyRef.attestation)] :=
  (register_attestation_payload (fun _ _ => [])
    (fun _ => ⟨4, List.replicate 32 0, List.replicate 32 0⟩) []
    ⟨⟨[], 0⟩, ⟨0⟩⟩ (List.replicate 64 0)
    ⟨List.replicate 32 0, List.replicate 32 0⟩ (mkHandle 0) 0
    ⟨[⟨List.replicate 32 0, mkHandle 0, 0⟩], 1⟩
    (by decide) (by decide) ⟨rfl, rfl, rfl⟩).1

/-- C3: a handle freshly derived for application id `A` resolves under `A`
to exactly the derived key reference; it does not resolve under any other
application id; and no corrupt or truncated handle (one never derived)
resolves at all — NotFound, never partial key material. -/
theorem key_handle_application_binding (s : KHMState) (A h : List Nat)
    (kref : Nat) (s' : KHMState) (hwf : s.wf)
    (hder : khmDerive s A = some (h, kref, s')) :
    khmResolve s' A h = some kref ∧
    (∀ B, B ≠ A → khmResolve s' B h = none) ∧
    (∀ g, g ≠ h → (∀ r ∈ s.records, r.handle ≠ g) →
      khmResolve s' A g = none) := by
  by_cases hlt : s.nextSlot < 2 ^ 32
  · rw [khmDerive, if_pos hlt] at hder
    simp only [Option.some.injEq, Prod.mk.injEq] at hder
    obtain ⟨hh, hk, hs⟩ := hder
    subst hh
    subst hk
    subst hs
    have hold : ∀ B : List Nat,
        s.records.find?
          (fun r => r.handle == mkHandle s.nextSlot && r.appId == B) =
          none := by
      intro B
      rw [List.find?_eq_none]
      intro r hr
      obtain ⟨hrh, hrk⟩ := hwf r hr
      simp only [Bool.and_eq_true, beq_iff_eq, not_and]
      intro hhandle
      exfalso
      have heq := mkHandle_inj_lt r.keyRef s.nextSlot (by omega) hlt
        (hrh.symm.trans hhandle)
      omega
    refine ⟨?_, ?_, ?_⟩
    · simp [khmResolve, List.find?_append, hold A, List.find?]
    · intro B hB
      have hAB : (A == B) = false := beq_eq_false_iff_ne.mpr (Ne.symm hB)
      simp [khmResolve, List.find?_append, hold B, List.find?, hAB]
    · intro g hg hrec
      have holdg : s.records.find?
          (fun r => r.handle == g && r.appId == A) = none := by
        rw [List.find?_eq_none]
        intro r hr
        simp only [Bool.and_eq_true, beq_iff_eq, not_and]
        intro hhandle
        exact absurd hhandle (hrec r hr)
      have hgh : (mkHandle s.nextSlot == g) = false :=
        beq_eq_false_iff_ne.mpr (Ne.symm hg)
      simp [khmResolve, List.find?_append, holdg, List.find?, hgh]
  · rw [khmDerive, if_neg hlt] at hder
    exact absurd hder (by simp)

/-- Witness for C3: on an empty store, deriving for application id `[1]`
yields a handle that resolves back to key reference 0. -/
theorem key_handle_application_binding_witness :
    khmResolve ⟨[⟨[1], mkHandle 0, 0⟩], 1⟩ [1] (mkHandle 0) = some 0 :=
  (key_handle_application_binding ⟨[], 0⟩ [1] (mkHandle 0) 0
    ⟨[⟨[1], mkHandle 0, 0⟩], 1⟩ (by simp [KHMState.wf]) (by decide)).1

/-- The counter value returned by a call, when it succeeded. -/
def successCounter (r : AuthResult) : Option Nat :=
  if r.status = U2F_SW_NO_ERROR then r.resp.map (fun a => a.counter)
  else none

/-- Run a sequence of Authenticate host calls (buffer, control byte,
presence outcome each), threading the device state; collect the counter
values returned by the successful calls, in order. -/
def runAuthCalls (signFn : List Nat → KeyRef → List Nat) :
    DeviceState → List (List Nat × Nat × Bool) → DeviceState × List Nat
  | s, [] => (s, [])
  | s, c :: cs =>
    match successCounter (u2f_authenticate signFn s c.1 c.2.1 c.2.2) with
    | some n =>
      ((runAuthCalls signFn
          (u2f_authenticate signFn s c.1 c.2.1 c.2.2).state cs).1,
        n :: (runAuthCalls signFn
          (u2f_authenticate signFn s c.1 c.2.1 c.2.2).state cs).2)
    | none =>
      runAuthCalls signFn (u2f_authenticate signFn s c.1 c.2.1 c.2.2).state cs

/-- Every non-success outcome maps to a status word other than Success. -/
theorem statusMapper_ne_no_error (o : Outcome) (h : o ≠ Outcome.success) :
    statusMapper o ≠ U2F_SW_NO_ERROR := by
  cases o
  · exact absurd rfl h
  all_goals decide

/-- Every single Authenticate call either succeeds — advancing the stored
counter by one and returning exactly the new value — or fails, leaving the
counter untouched and returning no counter value. -/
theorem auth_counter_cases (signFn : List Nat → KeyRef → List Nat)
    (s : DeviceState) (buf : List Nat) (ctl : Nat) (presence : Bool) :
    ((u2f_authenticate signFn s buf ctl presence).status = U2F_SW_NO_ERROR ∧
      (u2f_authenticate signFn s buf ctl presence).state.counter.ctr =
        s.counter.ctr + 1 ∧
      successCounter (u2f_authenticate signFn s buf ctl presence) =
        some (s.counter.ctr + 1)) ∨
    ((u2f_authenticate signFn s buf ctl presence).status ≠ U2F_SW_NO_ERROR ∧
      (u2f_authenticate signFn s buf ctl presence).state.counter =
        s.counter ∧
      successCounter (u2f_authenticate signFn s buf ctl presence) = none) := by
  unfold u2f_authenticate
  cases hdec : decodeAuthenticateRequest buf with
  | none =>
    exact Or.inr ⟨statusMapper_ne_no_error .malformed (by decide), rfl, rfl⟩
  | some req =>
    by_cases h7 : ctl = U2F_AUTH_CHECK_ONLY
    · simp only [if_pos h7]
      cases khmResolve s.khm req.applicationId req.keyHandle with
      | some k =>
        exact Or.inr ⟨statusMapper_ne_no_error .conditionsNotSatisfied
          (by decide), rfl, rfl⟩
      | none =>
        exact Or.inr ⟨statusMapper_ne_no_error .notFound (by decide),
          rfl, rfl⟩
    · simp only [if_neg h7]
      by_cases h3 : ctl = U2F_AUTH_ENFORCE
      · simp only [if_pos h3]
        cases khmResolve s.khm req.applicationId req.keyHandle with
        | none =>
          exact Or.inr ⟨statusMapper_ne_no_error .notFound (by decide),
            rfl, rfl⟩
        | some slot =>
          by_cases hp : presence = true
          · simp only [if_pos hp]
            cases hctr : counterNext s.counter with
            | none =>
              exact Or.inr ⟨statusMapper_ne_no_error .resourceExhausted
                (by decide), rfl, rfl⟩
            | some p =>
              have hplt : s.counter.ctr < 2 ^ 32 - 1 := by
                by_contra hnlt
                rw [counterNext, if_neg hnlt] at hctr
                exact Option.noConfusion hctr
              rw [counterNext, if_pos hplt] at hctr
              have hp2 : p = (s.counter.ctr + 1, ⟨s.counter.ctr + 1⟩) :=
                (Option.some.inj hctr).symm
              subst hp2
              exact Or.inl ⟨rfl, rfl, rfl⟩
          · simp only [if_neg hp]
            exact Or.inr ⟨statusMapper_ne_no_error .conditionsNotSatisfied
              (by decide), by trivial, by trivial⟩
      · simp only [if_neg h3]
        exact Or.inr ⟨statusMapper_ne_no_error .unsupportedCommand
          (by decide), by trivial, by trivial⟩

/-- Running any call sequence yields strictly increasing success counters,
all above the starting counter, and never decreases the stored counter. -/
theorem runAuthCalls_spec (signFn : List Nat → KeyRef → List Nat)
    (s : DeviceState) (calls : List (List Nat × Nat × Bool)) :
    List.Pairwise (· < ·) (runAuthCalls signFn s calls).2 ∧
    (∀ n ∈ (runAuthCalls signFn s calls).2, s.counter.ctr < n) ∧
    s.counter.ctr ≤ (runAuthCalls signFn s calls).1.counter.ctr := by
  induction calls generalizing s with
  | nil => simp [runAuthCalls]
  | cons c cs ih =>
    obtain ⟨hpw, hgt, hle⟩ :=
      ih (u2f_authenticate signFn s c.1 c.2.1 c.2.2).state
    rcases auth_counter_cases signFn s c.1 c.2.1 c.2.2 with
      ⟨hst, hctr, hsc⟩ | ⟨hst, hctr, hsc⟩
    · simp only [runAuthCalls, hsc]
      rw [hctr] at hgt hle
      refine ⟨List.Pairwise.cons (fun n hn => hgt n hn) hpw, ?_, by omega⟩
      intro n hn
      rcases List.mem_cons.mp hn with hn | hn
      · omega
      · have := hgt n hn
        omega
    · simp only [runAuthCalls, hsc]
      have hctr' : (u2f_authenticate signFn s c.1 c.2.1 c.2.2).state.counter.ctr
          = s.counter.ctr := by rw [hctr]
      rw [hctr'] at hgt hle
      exact ⟨hpw, hgt, hle⟩

/-- C1: across any sequence of Authenticate calls, the counter values
returned by successful Enforce-mode calls are pairwise strictly increasing
in order (each exceeds every earlier one, no value repeats), and a failed
call — malformed, not-found, presence-denied, check-only, or otherwise —
leaves the stored counter unchanged. -/
theorem authenticate_counter_strictly_monotonic
    (signFn : List Nat → KeyRef → List Nat) (s : DeviceState)
    (calls : List (List Nat × Nat × Bool)) :
    List.Pairwise (· < ·) (runAuthCalls signFn s calls).2 ∧
    (∀ buf ctl presence,
      (u2f_authenticate signFn s buf ctl presence).status ≠ U2F_SW_NO_ERROR →
      (u2f_authenticate signFn s buf ctl presence).state.counter =
        s.counter) := by
  refine ⟨(runAuthCalls_spec signFn s calls).1, ?_⟩
  intro buf ctl presence hfail
  rcases auth_counter_cases signFn s buf ctl presence with
    ⟨hst, _, _⟩ | ⟨_, hctr, _⟩
  · exact absurd hst hfail
  · exact hctr

/-- Witness for C1: on a fresh device, the failed (malformed, empty-buffer)
call leaves the counter unchanged. -/
theorem authenticate_counter_strictly_monotonic_witness :
    (u2f_authenticate (fun _ _ => []) ⟨⟨[], 0⟩, ⟨0⟩⟩ [] U2F_AUTH_ENFORCE
      true).state.counter = (⟨⟨[], 0⟩, ⟨0⟩⟩ : DeviceState).counter :=
  (authenticate_counter_strictly_monotonic (fun _ _ => [])
    ⟨⟨[], 0⟩, ⟨0⟩⟩ []).2 [] U2F_AUTH_ENFORCE true (by decide)

/-- C10: the fixed capacities of `u2f.h` are sufficient: the
`keyHandleCertSig` region holds exactly 128+2048+72 = 2248 bytes and fits
every in-bounds key handle, certificate and signature; `U2F_MAX_REQ_SIZE`
is 203 and covers every well-formed request (64 bytes for Register, at most
193 for Authenticate); `U2F_MAX_RESP_SIZE` is 2317 and covers every
well-formed response plus a 2-byte status word. -/
theorem fixed_buffers_sufficient :
    U2F_MAX_KH_SIZE + U2F_MAX_ATT_CERT_SIZE + U2F_MAX_EC_SIG_SIZE = 2248 ∧
    (∀ kh cert sg : List Nat, kh.length ≤ U2F_MAX_KH_SIZE →
      cert.length ≤ U2F_MAX_ATT_CERT_SIZE →
      sg.length ≤ U2F_MAX_EC_SIG_SIZE →
      kh.length + cert.length + sg.length ≤ 2248) ∧
    U2F_MAX_REQ_SIZE = 203 ∧
    (∀ r : RegisterRequest, r.challenge.length = U2F_CHAL_SIZE →
      r.applicationId.length = U2F_APPID_SIZE →
      (encodeRegisterRequest r).length = 64 ∧
      (encodeRegisterRequest r).length ≤ U2F_MAX_REQ_SIZE) ∧
    (∀ r : AuthenticateRequest, r.challenge.length = U2F_CHAL_SIZE →
      r.applicationId.length = U2F_APPID_SIZE →
      r.keyHandle.length ≤ U2F_MAX_KH_SIZE →
      (encodeAuthenticateRequest r).length ≤ 193 ∧
      (encodeAuthenticateRequest r).length ≤ U2F_MAX_REQ_SIZE) ∧
    U2F_MAX_RESP_SIZE = 2317 ∧
    (∀ r : RegisterResponse, r.wf →
      (encodeRegisterResponse r).length + 2 ≤ U2F_MAX_RESP_SIZE) ∧
    (∀ r : AuthenticateResponse, r.wf →
      (encodeAuthenticateResponse r).length + 2 ≤ U2F_MAX_RESP_SIZE) ∧
    versionBytes.length + 2 ≤ U2F_MAX_RESP_SIZE := by
  refine ⟨by decide, ?_, by decide, ?_, ?_, by decide, ?_, ?_, by decide⟩
  · intro kh cert sg h1 h2 h3
    simp only [U2F_MAX_KH_SIZE, U2F_MAX_ATT_CERT_SIZE,
      U2F_MAX_EC_SIG_SIZE] at h1 h2 h3
    omega
  · intro r h1 h2
    have h64 : (encodeRegisterRequest r).length = 64 := by
      simp [encodeRegisterRequest, h1, h2, U2F_CHAL_SIZE, U2F_APPID_SIZE]
    exact ⟨h64, by rw [h64]; decide⟩
  · intro r h1 h2 h3
    simp only [U2F_CHAL_SIZE] at h1
    simp only [U2F_APPID_SIZE] at h2
    simp only [U2F_MAX_KH_SIZE] at h3
    simp only [encodeAuthenticateRequest, List.length_append,
      List.length_singleton, h1, h2, U2F_MAX_REQ_SIZE,
      sizeof_U2F_AUTHENTICATE_REQ, U2F_CHAL_SIZE, U2F_APPID_SIZE,
      U2F_MAX_KH_SIZE]
    omega
  · intro r hwf
    obtain ⟨⟨hf, hx, hy⟩, hkh, hc, hs⟩ := hwf
    simp only [U2F_EC_KEY_SIZE] at hx hy
    simp only [U2F_MAX_KH_SIZE] at hkh
    simp only [U2F_MAX_ATT_CERT_SIZE] at hc
    simp only [U2F_MAX_EC_SIG_SIZE] at hs
    simp only [encodeRegisterResponse, encodeECPoint, List.length_append,
      List.length_singleton, hx, hy, U2F_MAX_RESP_SIZE,
      sizeof_U2F_REGISTER_RESP, sizeof_U2F_EC_POINT, U2F_EC_KEY_SIZE,
      U2F_MAX_KH_SIZE, U2F_MAX_ATT_CERT_SIZE, U2F_MAX_EC_SIG_SIZE]
    omega
  · intro r hwf
    simp only [AuthenticateResponse.wf, U2F_MAX_EC_SIG_SIZE] at hwf
    simp only [encodeAuthenticateResponse, natToBytesBE4,
      List.length_append, List.length_singleton, List.length_cons,
      List.length_nil, U2F_MAX_RESP_SIZE, sizeof_U2F_REGISTER_RESP,
      sizeof_U2F_EC_POINT, U2F_EC_KEY_SIZE, U2F_MAX_KH_SIZE,
      U2F_MAX_ATT_CERT_SIZE, U2F_MAX_EC_SIG_SIZE]
    omega

/-- Witness for C10: the maximal well-formed RegisterResponse (128-byte
handle, 2048-byte certificate, 72-byte signature) fits with its status
word. -/
theorem fixed_buffers_sufficient_witness :
    (encodeRegisterResponse ⟨5, ⟨4, List.replicate 32 0, List.replicate 32 0⟩,
      List.replicate 128 0, List.replicate 2048 0,
      List.replicate 72 0⟩).length + 2 ≤ U2F_MAX_RESP_SIZE :=
  fixed_buffers_sufficient.2.2.2.2.2.2.1
    ⟨5, ⟨4, List.replicate 32 0, List.replicate 32 0⟩, List.replicate 128 0,
      List.replicate 2048 0, List.replicate 72 0⟩
    ⟨⟨rfl, rfl, rfl⟩, by rw [List.length_replicate]; decide,
      by rw [List.length_replicate]; decide,
      by rw [List.length_replicate]; decide⟩
